import Mathlib

/-!
Verification development for the KRMU Python assignment repository.

The main subject is the energy-dashboard ingestion-and-aggregation pipeline
(`Assignment-5/energy_dashboard.py`): `ingest_data`, and the
`BuildingManager` methods `calculate_summary_statistics` and
`calculate_time_trends`.  Two further scripts are embedded where claims
concern them: the gradebook script's module guard (`gradebook.py`) and the
calorie tracker's average computation (`tracker.py`).

Embedding conventions:
* Tables (pandas DataFrames) are lists of rows; the `Timestamp` index is a
  `Nat` counting hours since an epoch, so `index.hour = ts % 24` and the
  calendar day is `ts / 24`.
* Values are rationals (`ℚ`); the scripts only add, divide and compare.
* The external parsers (`pd.to_datetime(errors=coerce)` /
  `pd.to_numeric(errors=coerce)`) are abstracted as `Option` fields of a raw
  row: `none` models a coerced NaT / NaN that `dropna` then removes.
* A CSV file is a record of the facts `ingest_data` inspects: whether each
  required column is present, whether reading the file succeeds, and its rows.
* `sort_values` / sorted grouping keys are modelled with the stable
  `List.insertionSort`.
-/

namespace EnergyDashboard

/-- A raw CSV row as it stands right after `pd.read_csv`: the timestamp and
kWh cells may fail to parse (`none` = coerced to NaT / NaN). -/
structure RawRow where
  ts : Option Nat
  building : String
  kwh : Option ℚ
  deriving Repr, DecidableEq

/-- A row after the `Timestamp` column has been parsed and NaT rows dropped
(`energy_dashboard.py` lines 59-60); the kWh cell is still unparsed. -/
structure TsRow where
  ts : Nat
  building : String
  kwh : Option ℚ
  deriving Repr, DecidableEq

/-- A fully cleaned row of the combined table (`energy_dashboard.py` lines
76-80): indexed by timestamp, with a numeric kWh value. -/
structure Row where
  ts : Nat
  building : String
  kwh : ℚ
  deriving Repr, DecidableEq

/-- A CSV file as seen by `ingest_data`: presence of the three required
columns, whether `pd.read_csv` succeeds, and the parsed raw rows. -/
structure CSVFile where
  hasTimestamp : Bool
  hasBuilding : Bool
  hasKWh : Bool
  readOk : Bool
  rows : List RawRow
  deriving Repr, DecidableEq

/-- The data directory: whether it exists, and its `*.csv` files in
lexicographic order (the order `sorted(data_dir.glob("*.csv"))` yields). -/
structure Dir where
  dirExists : Bool
  files : List CSVFile
  deriving Repr, DecidableEq

/-- Ordering used for `df.sort_values('Timestamp')` inside one file. -/
def tsLe (a b : TsRow) : Prop := a.ts ≤ b.ts

instance : DecidableRel tsLe := fun a b => inferInstanceAs (Decidable (a.ts ≤ b.ts))

instance : IsTotal TsRow tsLe := ⟨fun a b => Nat.le_total a.ts b.ts⟩

instance : IsTrans TsRow tsLe := ⟨fun _ _ _ h₁ h₂ => Nat.le_trans h₁ h₂⟩

/-- Per-file processing in the loop of `ingest_data` (lines 44-69):
a file whose read fails or that lacks a required column contributes nothing
(`continue`); otherwise its timestamp column is parsed, NaT rows are
dropped, and the remaining rows are sorted by timestamp. -/
def processFile (f : CSVFile) : Option (List TsRow) :=
  if f.readOk && f.hasTimestamp && f.hasBuilding && f.hasKWh then
    some (List.insertionSort tsLe
      (f.rows.filterMap fun r => r.ts.map fun t => TsRow.mk t r.building r.kwh))
  else
    none

/-- The `pd.concat(all_rows)` step (line 75): the per-file tables in file
order, joined into one table. -/
def concatFrames (d : Dir) : List TsRow :=
  (d.files.filterMap processFile).flatten

/-- The final numeric cleaning (lines 79-80): parse `kWh` as numeric and
drop the rows where it is NaN — applied after concatenation. -/
def dropNonNumeric (rows : List TsRow) : List Row :=
  rows.filterMap fun r => r.kwh.map fun v => Row.mk r.ts r.building v

/-- `ingest_data` (lines 24-82): a missing directory yields an empty table;
so does a directory in which no file survives the per-file loop (which
covers the zero-CSV-files case); otherwise the surviving per-file tables
are concatenated and the non-numeric kWh rows dropped. -/
def ingest_data (d : Dir) : List Row :=
  if !d.dirExists then []
  else if d.files.filterMap processFile = [] then []
  else dropNonNumeric (concatFrames d)

/-! ### BuildingManager: aggregation -/

/-- One row of the summary-statistics table produced by
`calculate_summary_statistics` (lines 106-112): indexed by building, with
the four aggregates of `kWh`. -/
structure SummaryRow where
  building : String
  mean_kWh : ℚ
  min_kWh : ℚ
  max_kWh : ℚ
  total_kWh : ℚ
  deriving Repr, DecidableEq

/-- Lexicographic comparison of character lists by code point — the order
Python uses to compare strings, hence the order of pandas group keys. -/
def charListLe : List Char → List Char → Bool
  | [], _ => true
  | _ :: _, [] => false
  | c :: cs, d :: ds =>
    if c.toNat < d.toNat then true
    else if d.toNat < c.toNat then false
    else charListLe cs ds

/-- Ordering of strings used for the sorted group keys that
`groupby('Building')` produces. -/
def strLe (a b : String) : Prop := charListLe a.toList b.toList = true

theorem charListLe_cons_iff {c d : Char} {cs ds : List Char} :
    charListLe (c :: cs) (d :: ds) = true ↔
      c.toNat < d.toNat ∨ (c.toNat = d.toNat ∧ charListLe cs ds = true) := by
  simp only [charListLe]
  split_ifs with h₁ h₂
  · simp [h₁]
  · simp [h₁, h₂]
    omega
  · have : c.toNat = d.toNat := by omega
    simp [h₁, this]

theorem charListLe_total : ∀ x y : List Char, charListLe x y = true ∨ charListLe y x = true
  | [], _ => Or.inl rfl
  | _ :: _, [] => Or.inr rfl
  | c :: cs, d :: ds => by
    rcases Nat.lt_trichotomy c.toNat d.toNat with h | h | h
    · exact Or.inl (charListLe_cons_iff.mpr (Or.inl h))
    · rcases charListLe_total cs ds with ih | ih
      · exact Or.inl (charListLe_cons_iff.mpr (Or.inr ⟨h, ih⟩))
      · exact Or.inr (charListLe_cons_iff.mpr (Or.inr ⟨h.symm, ih⟩))
    · exact Or.inr (charListLe_cons_iff.mpr (Or.inl h))

theorem charListLe_trans :
    ∀ x y z : List Char, charListLe x y = true → charListLe y z = true →
      charListLe x z = true
  | [], _, _, _, _ => rfl
  | _ :: _, [], _, hxy, _ => by simp [charListLe] at hxy
  | _ :: _, _ :: _, [], _, hyz => by simp [charListLe] at hyz
  | c :: cs, d :: ds, e :: es, hxy, hyz => by
    rcases charListLe_cons_iff.mp hxy with h₁ | ⟨h₁, r₁⟩ <;>
      rcases charListLe_cons_iff.mp hyz with h₂ | ⟨h₂, r₂⟩
    · exact charListLe_cons_iff.mpr (Or.inl (Nat.lt_trans h₁ h₂))
    · exact charListLe_cons_iff.mpr (Or.inl (h₂ ▸ h₁))
    · exact charListLe_cons_iff.mpr (Or.inl (h₁ ▸ h₂))
    · exact charListLe_cons_iff.mpr
        (Or.inr ⟨h₁.trans h₂, charListLe_trans cs ds es r₁ r₂⟩)

instance : DecidableRel strLe := fun a b =>
  inferInstanceAs (Decidable (charListLe a.toList b.toList = true))

instance : IsTotal String strLe := ⟨fun a b => charListLe_total a.toList b.toList⟩

instance : IsTrans String strLe :=
  ⟨fun _ _ _ h₁ h₂ => charListLe_trans _ _ _ h₁ h₂⟩

/-- The group keys of `df.groupby('Building')`: the distinct building names
of the table, in ascending order (pandas sorts group keys by default). -/
def buildingsOf (df : List Row) : List String :=
  List.insertionSort strLe (df.map Row.building).dedup

/-- The rows of one `groupby('Building')` group, in table order. -/
def groupOf (df : List Row) (b : String) : List Row :=
  df.filter fun r => r.building == b

/-- Minimum of a list of values, as `Series.min` on a non-empty series. -/
def listMin : List ℚ → ℚ
  | [] => 0
  | v :: vs => vs.foldl min v

/-- Maximum of a list of values, as `Series.max` on a non-empty series. -/
def listMax : List ℚ → ℚ
  | [] => 0
  | v :: vs => vs.foldl max v

/-- The `agg` record of one building group (lines 107-111): mean, min, max
and sum of the group's `kWh` values. -/
def summaryFor (df : List Row) (b : String) : SummaryRow :=
  let vs := (groupOf df b).map Row.kwh
  { building := b
    mean_kWh := vs.sum / (vs.length : ℚ)
    min_kWh := listMin vs
    max_kWh := listMax vs
    total_kWh := vs.sum }

/-- Ordering used for `sort_values('total_kWh', ascending=False)`. -/
def descTotal (a b : SummaryRow) : Prop := b.total_kWh ≤ a.total_kWh

instance : DecidableRel descTotal := fun a b =>
  inferInstanceAs (Decidable (b.total_kWh ≤ a.total_kWh))

instance : IsTotal SummaryRow descTotal := ⟨fun a b => le_total b.total_kWh a.total_kWh⟩

instance : IsTrans SummaryRow descTotal := ⟨fun _ _ _ h₁ h₂ => le_trans h₂ h₁⟩

/-- `calculate_summary_statistics` as a pure computation on the stored
table (lines 97-114): empty table → empty result; otherwise group by
building, aggregate, and sort by descending total. -/
def summaryStatistics (df : List Row) : List SummaryRow :=
  if df = [] then []
  else List.insertionSort descTotal ((buildingsOf df).map (summaryFor df))

/-! ### BuildingManager: time trends -/

/-- Calendar day of a timestamp (the `resample('D')` bucket). -/
def dayOf (t : Nat) : Nat := t / 24

/-- Week bucket of a timestamp (the `resample('W')` bucket; the exact
boundary convention is an implementation default). -/
def weekOf (t : Nat) : Nat := t / (24 * 7)

/-- `self.df['kWh'].resample('D').sum()` (line 128): one entry per calendar
day from the earliest to the latest day of the table, each the sum of that
day's values (a gap day sums to 0, as resample fills gaps). -/
def dailyTotals (df : List Row) : List (Nat × ℚ) :=
  match df.map (fun r => dayOf r.ts) with
  | [] => []
  | d :: ds =>
    let lo := ds.foldl min d
    let hi := ds.foldl max d
    (List.range' lo (hi - lo + 1)).map fun day =>
      (day, ((df.filter fun r => dayOf r.ts == day).map Row.kwh).sum)

/-- Mean of a week bucket: `resample('W').mean()` leaves an empty bucket as
NaN, modelled as `none`. -/
def weekMean (vs : List ℚ) : Option ℚ :=
  if vs = [] then none else some (vs.sum / (vs.length : ℚ))

/-- `self.df.groupby('Building')['kWh'].resample('W').mean()` (line 131):
for each building, one entry per week bucket from its earliest to its
latest week, each the mean of that building's values in the bucket (an
empty bucket is NaN).  The subsequent `unstack(level=0)` only reshapes this
for plotting. -/
def weeklyAvgByBuilding (df : List Row) : List (String × List (Nat × Option ℚ)) :=
  (buildingsOf df).map fun b =>
    let g := groupOf df b
    (b, match g.map (fun r => weekOf r.ts) with
        | [] => []
        | w :: ws =>
          let lo := ws.foldl min w
          let hi := ws.foldl max w
          (List.range' lo (hi - lo + 1)).map fun wk =>
            (wk, weekMean ((g.filter fun r => weekOf r.ts == wk).map Row.kwh)))

/-- `g['kWh'].idxmax()` followed by `g.loc[...]` (line 140): `idxmax`
returns the timestamp index of the first row attaining the maximum value,
so the chosen row is the first one whose value is ≥ every value in the
group. -/
def idxmaxRow (g : List Row) : Option Row :=
  g.find? fun r => g.all fun s => decide (s.kwh ≤ r.kwh)

/-- The peak-hours table (lines 136-142): for each building the rows
returned by `g.loc[g['kWh'].idxmax()][['Hour', 'kWh']]`.  `g.loc[ts]`
returns every row of the group whose timestamp index equals `ts`, so when
the peak row's timestamp is duplicated within the group the result holds
several rows, not one. -/
def peakHoursByBuilding (df : List Row) : List (String × List (Nat × ℚ)) :=
  (buildingsOf df).map fun b =>
    let g := groupOf df b
    (b, match idxmaxRow g with
        | none => []
        | some r => (g.filter fun s => s.ts == r.ts).map fun s => (s.ts % 24, s.kwh))

/-! ### BuildingManager state -/

/-- The `BuildingManager` object: the copied table plus the four lazily
filled result attributes, all `None` after `__init__` (lines 90-95). -/
structure Manager where
  df : List Row
  summary_stats : Option (List SummaryRow)
  daily_totals : Option (List (Nat × ℚ))
  weekly_avg_by_building : Option (List (String × List (Nat × Option ℚ)))
  peak_hours_by_building : Option (List (String × List (Nat × ℚ)))
  deriving Repr, DecidableEq

/-- `BuildingManager.__init__` (lines 90-95): store a copy of the combined
table and initialise every cached result to `None`. -/
def mkManager (df : List Row) : Manager :=
  { df := df
    summary_stats := none
    daily_totals := none
    weekly_avg_by_building := none
    peak_hours_by_building := none }

/-- `calculate_summary_statistics` as the method (lines 97-114): returns
the summary table and stores it in `self.summary_stats`; the empty-table
guard stores and returns an empty result. -/
def calcSummaryStatistics (m : Manager) : List SummaryRow × Manager :=
  let s := summaryStatistics m.df
  (s, { m with summary_stats := some s })

/-- `calculate_time_trends` as the method (lines 116-143).  On an empty
table it stores empty daily totals and weekly averages and returns them,
leaving `peak_hours_by_building` untouched (the early return at line 125
precedes the peak-hour computation).  Otherwise it computes and stores all
three. -/
def calcTimeTrends (m : Manager) :
    (List (Nat × ℚ) × List (String × List (Nat × Option ℚ))) × Manager :=
  if m.df = [] then
    (([], []), { m with daily_totals := some [], weekly_avg_by_building := some [] })
  else
    let daily := dailyTotals m.df
    let weekly := weeklyAvgByBuilding m.df
    let peak := peakHoursByBuilding m.df
    ((daily, weekly),
      { m with
          daily_totals := some daily
          weekly_avg_by_building := some weekly
          peak_hours_by_building := some peak })

/-- The ingestion-and-aggregation part of `main` (lines 302-307): ingest,
build a fresh manager, compute summary statistics, compute time trends. -/
def runPipeline (d : Dir) :
    (List SummaryRow × (List (Nat × ℚ) × List (String × List (Nat × Option ℚ)))) × Manager :=
  let df := ingest_data d
  let m := mkManager df
  let (s, m₁) := calcSummaryStatistics m
  let (t, m₂) := calcTimeTrends m₁
  ((s, t), m₂)

end EnergyDashboard

namespace Gradebook

/-!
Embedding of the module-level execution of `gradebook.py`.  The file
defines its functions and then runs the guard on line 246:
`if _name_ == "_main_": main()`.  Evaluating the guard looks up the name
`_name_` in the module's global scope (then builtins); a lookup of a name
that is nowhere defined raises `NameError` and terminates the run.
-/

/-- The names bound at module scope by `gradebook.py` when line 246 is
reached: the two imports, the constant, and the nine functions. -/
def moduleNames : List String :=
  ["csv", "os", "PASS_MARK", "get_manual_input", "load_csv_data",
   "append_student_record", "calculate_average", "find_max_score",
   "find_min_score", "assign_grades", "print_summary", "main"]

/-- Names the interpreter itself provides: the implicit module globals and
the builtins the script references. -/
def ambientNames : List String :=
  ["__name__", "__file__", "__doc__", "__builtins__",
   "input", "print", "float", "len", "open", "range", "list", "str"]

/-- Python name resolution at module scope: a name is defined iff it is a
module global or an ambient name. -/
def nameDefined (n : String) : Bool :=
  (moduleNames ++ ambientNames).contains n

/-- Outcome of running `python gradebook.py`. -/
inductive Outcome where
  /-- `main()` runs: the 1-4 menu session on standard input. -/
  | menuSession : Outcome
  /-- The run terminates with `NameError: name '...' is not defined`. -/
  | nameError : String → Outcome
  deriving Repr, DecidableEq

/-- Module-level execution of `gradebook.py` lines 246-247: evaluate the
guard `if _name_ == "_main_":`.  The comparison first evaluates `_name_`;
if that name is undefined the run raises `NameError`, otherwise the guard
would compare it with `"_main_"` and call `main()`. -/
def moduleRun : Outcome :=
  if nameDefined "_name_" then Outcome.menuSession
  else Outcome.nameError "_name_"

end Gradebook

namespace CalorieTracker

/-!
Embedding of `tracker.py` (the daily calorie tracker).  The script reads
the number of meals and the daily limit, collects `(name, calories)`
pairs, then on lines 40-41 computes
`total_cal = sum(meal_calories)` and
`avg_cal = total_cal / len(meal_calories)` with no guard on the divisor:
with zero meals the division raises `ZeroDivisionError` (modelled as
`none`) before any total or status line is printed.
-/

/-- What a completed run prints: the total, the unguarded average, and
whether the limit was exceeded (line 47). -/
structure RunReport where
  total : ℚ
  avg : ℚ
  exceeded : Bool
  deriving Repr, DecidableEq

/-- The computation of lines 40-50 of `tracker.py`; `none` models the
`ZeroDivisionError` raised on line 41 when no meals were entered. -/
def trackerRun (limit : ℚ) (meal_calories : List ℚ) : Option RunReport :=
  let total_cal := meal_calories.sum
  if meal_calories.length = 0 then none
  else
    some { total := total_cal
           avg := total_cal / (meal_calories.length : ℚ)
           exceeded := decide (total_cal > limit) }

end CalorieTracker

namespace EnergyDashboard

/-! ### Lemmas about ingestion -/

theorem processFile_eq_some (f : CSVFile) (hr : f.readOk = true)
    (h₁ : f.hasTimestamp = true) (h₂ : f.hasBuilding = true) (h₃ : f.hasKWh = true) :
    processFile f = some (List.insertionSort tsLe
      (f.rows.filterMap fun r => r.ts.map fun t => TsRow.mk t r.building r.kwh)) := by
  simp [processFile, hr, h₁, h₂, h₃]

theorem processFile_eq_none (f : CSVFile)
    (h : f.readOk = false ∨ f.hasTimestamp = false ∨ f.hasBuilding = false ∨
      f.hasKWh = false) :
    processFile f = none := by
  rcases h with h | h | h | h <;> simp [processFile, h]

/-- The skip-and-return-empty structure of `ingest_data`, flattened: a
missing directory gives an empty table, and otherwise the result is the
concatenation of the surviving per-file tables with the non-numeric rows
dropped (the `not all_rows` early return coincides with that). -/
theorem ingest_data_eq (d : Dir) :
    ingest_data d =
      if d.dirExists = true then dropNonNumeric (concatFrames d) else [] := by
  rcases d with ⟨e, fs⟩
  cases e with
  | false => simp [ingest_data]
  | true =>
    by_cases h : fs.filterMap processFile = []
    · simp [ingest_data, h, concatFrames, dropNonNumeric]
    · simp [ingest_data, h]

theorem mem_dropNonNumeric {l : List TsRow} {x : Row} :
    x ∈ dropNonNumeric l ↔
      ∃ r ∈ l, r.ts = x.ts ∧ r.building = x.building ∧ r.kwh = some x.kwh := by
  simp only [dropNonNumeric, List.mem_filterMap, Option.map_eq_some']
  constructor
  · rintro ⟨r, hr, v, hv, rfl⟩
    exact ⟨r, hr, rfl, rfl, hv⟩
  · rintro ⟨r, hr, h₁, h₂, h₃⟩
    exact ⟨r, hr, x.kwh, h₃, by cases x; cases r; simp_all⟩

theorem mem_processFile {f : CSVFile} {l : List TsRow} (h : processFile f = some l)
    {x : TsRow} :
    x ∈ l ↔ ∃ r ∈ f.rows, r.ts = some x.ts ∧ r.building = x.building ∧ r.kwh = x.kwh := by
  unfold processFile at h
  split at h
  · cases h
    rw [List.mem_insertionSort]
    simp only [List.mem_filterMap, Option.map_eq_some']
    constructor
    · rintro ⟨r, hr, t, ht, rfl⟩
      exact ⟨r, hr, ht, rfl, rfl⟩
    · rintro ⟨r, hr, h₁, h₂, h₃⟩
      exact ⟨r, hr, x.ts, h₁, by cases x; cases r; simp_all⟩
  · cases h

theorem mem_concatFrames {d : Dir} {x : TsRow} :
    x ∈ concatFrames d ↔ ∃ f ∈ d.files, ∃ l, processFile f = some l ∧ x ∈ l := by
  simp only [concatFrames, List.mem_flatten, List.mem_filterMap]
  constructor
  · rintro ⟨l, ⟨f, hf, hl⟩, hx⟩
    exact ⟨f, hf, l, hl, hx⟩
  · rintro ⟨f, hf, l, hl, hx⟩
    exact ⟨l, ⟨f, hf, hl⟩, hx⟩

/-- Retention: a row of a fully processed file whose timestamp and value
both parse appears in the combined table. -/
theorem mem_ingest_of {d : Dir} {f : CSVFile} (hd : d.dirExists = true)
    (hf : f ∈ d.files) (hr : f.readOk = true) (h₁ : f.hasTimestamp = true)
    (h₂ : f.hasBuilding = true) (h₃ : f.hasKWh = true)
    {r : RawRow} (hrow : r ∈ f.rows) {t : Nat} {v : ℚ}
    (hts : r.ts = some t) (hkwh : r.kwh = some v) :
    (Row.mk t r.building v) ∈ ingest_data d := by
  rw [ingest_data_eq, if_pos hd, mem_dropNonNumeric]
  refine ⟨TsRow.mk t r.building r.kwh, ?_, rfl, rfl, by rw [hkwh]⟩
  rw [mem_concatFrames]
  refine ⟨f, hf, _, processFile_eq_some f hr h₁ h₂ h₃, ?_⟩
  rw [mem_processFile (processFile_eq_some f hr h₁ h₂ h₃)]
  exact ⟨r, hrow, hts, rfl, rfl⟩

/-- Soundness: every row of the combined table descends from a raw row of
one of the directory files whose timestamp and value both parsed. -/
theorem ingest_sound {d : Dir} {row : Row} (h : row ∈ ingest_data d) :
    ∃ f ∈ d.files, ∃ raw ∈ f.rows,
      raw.ts = some row.ts ∧ raw.building = row.building ∧ raw.kwh = some row.kwh := by
  rw [ingest_data_eq] at h
  split at h
  · obtain ⟨x, hx, e₁, e₂, e₃⟩ := mem_dropNonNumeric.mp h
    obtain ⟨f, hf, l, hl, hxl⟩ := mem_concatFrames.mp hx
    obtain ⟨raw, hraw, ht, hb, hk⟩ := (mem_processFile hl).mp hxl
    exact ⟨f, hf, raw, hraw, by rw [ht, e₁], by rw [hb, e₂], by rw [hk, e₃]⟩
  · cases h

/-! ### Lemmas about aggregation -/

theorem foldl_min_spec (vs : List ℚ) (a : ℚ) :
    (vs.foldl min a ∈ a :: vs) ∧ vs.foldl min a ≤ a ∧ ∀ v ∈ vs, vs.foldl min a ≤ v := by
  induction vs generalizing a with
  | nil => simp
  | cons b t ih =>
    obtain ⟨hmem, hle, hall⟩ := ih (min a b)
    have hab : min a b = a ∨ min a b = b := min_choice a b
    refine ⟨?_, ?_, ?_⟩
    · simp only [List.foldl_cons]
      rcases List.mem_cons.mp hmem with h | h
      · rcases hab with e | e
        · rw [h, e]
          exact List.mem_cons_self _ _
        · rw [h, e]
          exact List.mem_cons_of_mem _ (List.mem_cons_self _ _)
      · exact List.mem_cons_of_mem _ (List.mem_cons_of_mem _ h)
    · simp only [List.foldl_cons]
      exact le_trans hle (min_le_left a b)
    · intro v hv
      simp only [List.foldl_cons]
      rcases List.mem_cons.mp hv with h | h
      · rw [h]
        exact le_trans hle (min_le_right a b)
      · exact hall v h

theorem foldl_max_spec (vs : List ℚ) (a : ℚ) :
    (vs.foldl max a ∈ a :: vs) ∧ a ≤ vs.foldl max a ∧ ∀ v ∈ vs, v ≤ vs.foldl max a := by
  induction vs generalizing a with
  | nil => simp
  | cons b t ih =>
    obtain ⟨hmem, hle, hall⟩ := ih (max a b)
    have hab : max a b = a ∨ max a b = b := max_choice a b
    refine ⟨?_, ?_, ?_⟩
    · simp only [List.foldl_cons]
      rcases List.mem_cons.mp hmem with h | h
      · rcases hab with e | e
        · rw [h, e]
          exact List.mem_cons_self _ _
        · rw [h, e]
          exact List.mem_cons_of_mem _ (List.mem_cons_self _ _)
      · exact List.mem_cons_of_mem _ (List.mem_cons_of_mem _ h)
    · simp only [List.foldl_cons]
      exact le_trans (le_max_left a b) hle
    · intro v hv
      simp only [List.foldl_cons]
      rcases List.mem_cons.mp hv with h | h
      · rw [h]
        exact le_trans (le_max_right a b) hle
      · exact hall v h

theorem listMin_spec {vs : List ℚ} (h : vs ≠ []) :
    listMin vs ∈ vs ∧ ∀ v ∈ vs, listMin vs ≤ v := by
  match vs, h with
  | v :: t, _ =>
    obtain ⟨hmem, hle, hall⟩ := foldl_min_spec t v
    refine ⟨hmem, ?_⟩
    intro w hw
    rcases List.mem_cons.mp hw with h | h
    · exact h ▸ hle
    · exact hall w h

theorem listMax_spec {vs : List ℚ} (h : vs ≠ []) :
    listMax vs ∈ vs ∧ ∀ v ∈ vs, v ≤ listMax vs := by
  match vs, h with
  | v :: t, _ =>
    obtain ⟨hmem, hle, hall⟩ := foldl_max_spec t v
    refine ⟨hmem, ?_⟩
    intro w hw
    rcases List.mem_cons.mp hw with h | h
    · exact h ▸ hle
    · exact hall w h

theorem mem_buildingsOf {df : List Row} {b : String} :
    b ∈ buildingsOf df ↔ ∃ r ∈ df, r.building = b := by
  simp [buildingsOf, List.mem_insertionSort, List.mem_dedup, List.mem_map]

theorem groupOf_ne_nil {df : List Row} {b : String} (h : ∃ r ∈ df, r.building = b) :
    groupOf df b ≠ [] := by
  obtain ⟨r, hr, hb⟩ := h
  have : r ∈ groupOf df b := List.mem_filter.mpr ⟨hr, by simp [hb]⟩
  intro he
  rw [he] at this
  cases this

/-- A building group is never empty for a key of the table, so the `agg`
values of `summaryFor` are over a non-empty series. -/
theorem summaryFor_building (df : List Row) (b : String) :
    (summaryFor df b).building = b := rfl

theorem summaryStatistics_perm (df : List Row) (h : df ≠ []) :
    (summaryStatistics df).Perm ((buildingsOf df).map (summaryFor df)) := by
  rw [summaryStatistics, if_neg h]
  exact List.perm_insertionSort _ _

/-- The first element of a list satisfying a (fixed) predicate, located by
an explicit decomposition. -/
theorem find?_eq_of_split {α : Type} {p : α → Bool} {l₁ l₂ : List α} {r : α}
    (h₁ : ∀ s ∈ l₁, p s = false) (hr : p r = true) :
    List.find? p (l₁ ++ r :: l₂) = some r := by
  induction l₁ with
  | nil => simp [List.find?_cons, hr]
  | cons a t ih =>
    have ha : p a = false := h₁ a (List.mem_cons_self a t)
    simp only [List.cons_append, List.find?_cons, ha]
    exact ih fun s hs => h₁ s (List.mem_cons_of_mem a hs)

/-- Every non-empty list of rows splits at the first occurrence of its
maximum value: rows before it are strictly smaller, and no row beats it. -/
theorem exists_first_max :
    ∀ (g : List Row), g ≠ [] →
      ∃ l₁ r l₂, g = l₁ ++ r :: l₂ ∧ (∀ s ∈ g, s.kwh ≤ r.kwh) ∧
        ∀ s ∈ l₁, s.kwh < r.kwh
  | [], h => absurd rfl h
  | a :: t, _ => by
    by_cases ht : t = []
    · subst ht
      exact ⟨[], a, [], rfl, by simp, by simp⟩
    · obtain ⟨l₁, r, l₂, hsplit, hmax, hstrict⟩ := exists_first_max t ht
      by_cases har : r.kwh ≤ a.kwh
      · refine ⟨[], a, t, rfl, ?_, by simp⟩
        intro s hs
        rcases List.mem_cons.mp hs with h | h
        · exact h ▸ le_refl _
        · exact le_trans (hmax s h) har
      · refine ⟨a :: l₁, r, l₂, by simp [hsplit], ?_, ?_⟩
        · intro s hs
          rcases List.mem_cons.mp hs with h | h
          · exact h ▸ le_of_lt (lt_of_not_le har)
          · exact hmax s h
        · intro s hs
          rcases List.mem_cons.mp hs with h | h
          · exact h ▸ lt_of_not_le har
          · exact hstrict s h

/-- `idxmax` on a non-empty group returns its first maximal row. -/
theorem idxmaxRow_spec (g : List Row) (hg : g ≠ []) :
    ∃ r, idxmaxRow g = some r ∧ (∀ s ∈ g, s.kwh ≤ r.kwh) ∧
      ∃ l₁ l₂, g = l₁ ++ r :: l₂ ∧ ∀ s ∈ l₁, s.kwh < r.kwh := by
  obtain ⟨l₁, r, l₂, hsplit, hmax, hstrict⟩ := exists_first_max g hg
  have hrmem : r ∈ g := hsplit ▸ List.mem_append_right l₁ (List.mem_cons_self r l₂)
  have hp : (g.all fun s => decide (s.kwh ≤ r.kwh)) = true := by
    rw [List.all_eq_true]
    intro s hs
    exact decide_eq_true (hmax s hs)
  have hnot : ∀ s ∈ l₁, (g.all fun u => decide (u.kwh ≤ s.kwh)) = false := by
    intro s hs
    rw [Bool.eq_false_iff]
    intro hall
    have := List.all_eq_true.mp hall r hrmem
    exact absurd (of_decide_eq_true this) (not_le.mpr (hstrict s hs))
  refine ⟨r, ?_, hmax, l₁, l₂, hsplit, hstrict⟩
  unfold idxmaxRow
  rw [hsplit]
  rw [hsplit] at hnot hp
  exact find?_eq_of_split hnot hp

/-- A predicate counted once picks out a one-element filter. -/
theorem filter_eq_single {α : Type} {p : α → Bool} {l : List α} {a : α}
    (hcount : l.countP p = 1) (hmem : a ∈ l) (hp : p a = true) :
    l.filter p = [a] := by
  have hlen : (l.filter p).length = 1 := by
    rw [← List.countP_eq_length_filter]
    exact hcount
  obtain ⟨x, hx⟩ := List.length_eq_one.mp hlen
  have : a ∈ l.filter p := List.mem_filter.mpr ⟨hmem, hp⟩
  rw [hx] at this
  rw [hx, List.mem_singleton.mp this]

end EnergyDashboard

/-! ## The claims -/

namespace EnergyDashboard

/-- C2: for every processed input file, every row whose timestamp fails to
parse and every row whose value is non-numeric is absent from the combined
table `ingest_data` returns (every combined-table row descends from a raw
row whose timestamp and value both parsed), while rows with a parseable
timestamp and numeric value from the same file are retained. -/
theorem claim_C2 (d : Dir) (f : CSVFile) (hd : d.dirExists = true) (hf : f ∈ d.files)
    (hread : f.readOk = true) (hts : f.hasTimestamp = true)
    (hbld : f.hasBuilding = true) (hkwh : f.hasKWh = true) :
    (∀ r ∈ f.rows, ∀ t v, r.ts = some t → r.kwh = some v →
      (Row.mk t r.building v) ∈ ingest_data d)
    ∧ (∀ row ∈ ingest_data d, ∃ f' ∈ d.files, ∃ raw ∈ f'.rows,
        raw.ts = some row.ts ∧ raw.building = row.building ∧ raw.kwh = some row.kwh) := by
  constructor
  · intro r hr t v ht hv
    exact mem_ingest_of hd hf hread hts hbld hkwh hr ht hv
  · intro row hrow
    exact ingest_sound hrow

theorem claim_C2_witness :
    (Dir.mk true [CSVFile.mk true true true true
        [RawRow.mk (some 0) "A" (some 10), RawRow.mk none "A" (some 7),
         RawRow.mk (some 1) "A" none]]).dirExists = true
    ∧ ((∀ r ∈ (CSVFile.mk true true true true
          [RawRow.mk (some 0) "A" (some 10), RawRow.mk none "A" (some 7),
           RawRow.mk (some 1) "A" none]).rows, ∀ t v, r.ts = some t → r.kwh = some v →
          (Row.mk t r.building v) ∈ ingest_data (Dir.mk true [CSVFile.mk true true true true
            [RawRow.mk (some 0) "A" (some 10), RawRow.mk none "A" (some 7),
             RawRow.mk (some 1) "A" none]]))
      ∧ (∀ row ∈ ingest_data (Dir.mk true [CSVFile.mk true true true true
            [RawRow.mk (some 0) "A" (some 10), RawRow.mk none "A" (some 7),
             RawRow.mk (some 1) "A" none]]),
          ∃ f' ∈ (Dir.mk true [CSVFile.mk true true true true
            [RawRow.mk (some 0) "A" (some 10), RawRow.mk none "A" (some 7),
             RawRow.mk (some 1) "A" none]]).files, ∃ raw ∈ f'.rows,
          raw.ts = some row.ts ∧ raw.building = row.building ∧ raw.kwh = some row.kwh)) :=
  ⟨rfl, claim_C2 _ _ rfl (by decide) rfl rfl rfl rfl⟩

/-- C3: `ingest_data` degrades instead of raising for a bad source: a
directory that does not exist yields an empty table, a directory with zero
CSV files yields an empty table, and a file whose read fails is skipped
while the remaining files are still ingested (removing it from the
directory does not change the result). -/
theorem claim_C3 (fs pre post : List CSVFile) (e tsC bC kC : Bool) (rows : List RawRow) :
    ingest_data (Dir.mk false fs) = []
    ∧ ingest_data (Dir.mk e []) = []
    ∧ ingest_data (Dir.mk e (pre ++ CSVFile.mk tsC bC kC false rows :: post))
        = ingest_data (Dir.mk e (pre ++ post)) := by
  refine ⟨by simp [ingest_data], by cases e <;> simp [ingest_data], ?_⟩
  have hnone : processFile (CSVFile.mk tsC bC kC false rows) = none :=
    processFile_eq_none _ (Or.inl rfl)
  have hfm : (pre ++ CSVFile.mk tsC bC kC false rows :: post).filterMap processFile
      = (pre ++ post).filterMap processFile := by
    simp [List.filterMap_append, List.filterMap_cons, hnone]
  simp only [ingest_data, concatFrames, hfm]

/-- C4: a file lacking any of the required columns Timestamp, Building,
kWh is skipped whole (removing it from the directory does not change the
combined table), while rows from the other, complete files still appear. -/
theorem claim_C4 (e : Bool) (pre post : List CSVFile) (f : CSVFile)
    (hcol : f.hasTimestamp = false ∨ f.hasBuilding = false ∨ f.hasKWh = false) :
    ingest_data (Dir.mk e (pre ++ f :: post)) = ingest_data (Dir.mk e (pre ++ post))
    ∧ ∀ f' ∈ pre ++ post, f'.readOk = true → f'.hasTimestamp = true →
        f'.hasBuilding = true → f'.hasKWh = true → e = true →
        ∀ r ∈ f'.rows, ∀ t v, r.ts = some t → r.kwh = some v →
          (Row.mk t r.building v) ∈ ingest_data (Dir.mk e (pre ++ f :: post)) := by
  have hnone : processFile f = none := processFile_eq_none f (Or.inr hcol)
  constructor
  · have hfm : (pre ++ f :: post).filterMap processFile
        = (pre ++ post).filterMap processFile := by
      simp [List.filterMap_append, List.filterMap_cons, hnone]
    simp only [ingest_data, concatFrames, hfm]
  · intro f' hf' hr h₁ h₂ h₃ he r hrow t v hts hkwh
    subst he
    refine mem_ingest_of rfl ?_ hr h₁ h₂ h₃ hrow hts hkwh
    rcases List.mem_append.mp hf' with h | h
    · exact List.mem_append_left _ h
    · exact List.mem_append_right _ (List.mem_cons_of_mem f h)

theorem claim_C4_witness :
    ((CSVFile.mk false true true true [RawRow.mk (some 5) "X" (some 1)]).hasTimestamp = false
      ∨ (CSVFile.mk false true true true [RawRow.mk (some 5) "X" (some 1)]).hasBuilding = false
      ∨ (CSVFile.mk false true true true [RawRow.mk (some 5) "X" (some 1)]).hasKWh = false)
    ∧ (ingest_data (Dir.mk true ([] ++ CSVFile.mk false true true true
          [RawRow.mk (some 5) "X" (some 1)] ::
          [CSVFile.mk true true true true [RawRow.mk (some 2) "B" (some 3)]]))
        = ingest_data (Dir.mk true ([] ++
          [CSVFile.mk true true true true [RawRow.mk (some 2) "B" (some 3)]]))
      ∧ ∀ f' ∈ ([] ++ [CSVFile.mk true true true true [RawRow.mk (some 2) "B" (some 3)]]),
          f'.readOk = true → f'.hasTimestamp = true →
          f'.hasBuilding = true → f'.hasKWh = true → true = true →
          ∀ r ∈ f'.rows, ∀ t v, r.ts = some t → r.kwh = some v →
            (Row.mk t r.building v) ∈ ingest_data (Dir.mk true
              ([] ++ CSVFile.mk false true true true [RawRow.mk (some 5) "X" (some 1)] ::
               [CSVFile.mk true true true true [RawRow.mk (some 2) "B" (some 3)]]))) :=
  ⟨Or.inl rfl, claim_C4 true [] _ _ (Or.inl rfl)⟩

end EnergyDashboard

namespace EnergyDashboard

/-- C1: for every non-empty combined table, `calculate_summary_statistics`
produces one entry per building present, with the mean, min, max and sum
of that building's kWh values, ordered by descending total sum; in
particular, for buildings A (values 10, 20) and B (value 5) it yields
A: mean 15, min 10, max 20, sum 30 and B: mean 5, min 5, max 5, sum 5,
in order A before B. -/
theorem claim_C1 (df : List Row) (hdf : df ≠ []) :
    (summaryStatistics df).Pairwise (fun a b => b.total_kWh ≤ a.total_kWh)
    ∧ ((summaryStatistics df).map SummaryRow.building).Nodup
    ∧ (∀ b, (∃ r ∈ df, r.building = b) ↔ ∃ e ∈ summaryStatistics df, e.building = b)
    ∧ (∀ e ∈ summaryStatistics df,
        (groupOf df e.building).map Row.kwh ≠ []
        ∧ e.total_kWh = ((groupOf df e.building).map Row.kwh).sum
        ∧ e.mean_kWh = ((groupOf df e.building).map Row.kwh).sum /
            (((groupOf df e.building).map Row.kwh).length : ℚ)
        ∧ e.min_kWh ∈ (groupOf df e.building).map Row.kwh
        ∧ (∀ v ∈ (groupOf df e.building).map Row.kwh, e.min_kWh ≤ v)
        ∧ e.max_kWh ∈ (groupOf df e.building).map Row.kwh
        ∧ (∀ v ∈ (groupOf df e.building).map Row.kwh, v ≤ e.max_kWh))
    ∧ summaryStatistics
        [Row.mk 0 "A" 10, Row.mk 1 "A" 20, Row.mk 2 "B" 5]
        = [SummaryRow.mk "A" 15 10 20 30, SummaryRow.mk "B" 5 5 5 5] := by
  have hperm := summaryStatistics_perm df hdf
  have hmem_iff : ∀ e : SummaryRow, e ∈ summaryStatistics df ↔
      e ∈ (buildingsOf df).map (summaryFor df) := fun e => hperm.mem_iff
  refine ⟨?_, ?_, ?_, ?_, ?_⟩
  · rw [summaryStatistics, if_neg hdf]
    exact List.sorted_insertionSort descTotal ((buildingsOf df).map (summaryFor df))
  · have hkeys : ((buildingsOf df).map (summaryFor df)).map SummaryRow.building
        = buildingsOf df := by
      rw [List.map_map]
      exact List.map_id' (buildingsOf df)
    have hnodup : (buildingsOf df).Nodup :=
      ((List.perm_insertionSort strLe _).nodup_iff).mpr
        (List.nodup_dedup (df.map Row.building))
    have := (hperm.map SummaryRow.building).nodup_iff
    rw [hkeys] at this
    exact this.mpr hnodup
  · intro b
    constructor
    · intro hb
      refine ⟨summaryFor df b, ?_, rfl⟩
      rw [hmem_iff]
      exact List.mem_map_of_mem _ (mem_buildingsOf.mpr hb)
    · rintro ⟨e, he, rfl⟩
      rw [hmem_iff] at he
      obtain ⟨b', hb', rfl⟩ := List.mem_map.mp he
      exact mem_buildingsOf.mp hb'
  · intro e he
    rw [hmem_iff] at he
    obtain ⟨b', hb', rfl⟩ := List.mem_map.mp he
    have hgrp : groupOf df b' ≠ [] := groupOf_ne_nil (mem_buildingsOf.mp hb')
    have hvs : (groupOf df b').map Row.kwh ≠ [] := by
      intro h
      exact hgrp (List.map_eq_nil_iff.mp h)
    obtain ⟨hmin_mem, hmin_le⟩ := listMin_spec hvs
    obtain ⟨hmax_mem, hmax_le⟩ := listMax_spec hvs
    exact ⟨hvs, rfl, rfl, hmin_mem, hmin_le, hmax_mem, hmax_le⟩
  · simp +decide only [summaryStatistics, buildingsOf, summaryFor, groupOf, listMin,
      listMax, List.insertionSort, List.orderedInsert, List.dedup, List.pwFilter, strLe,
      charListLe, List.filter_cons, List.filter_nil, List.map_cons, List.map_nil,
      List.sum_cons, List.sum_nil, List.length_cons, List.length_nil, List.foldl_cons,
      List.foldl_nil]
    norm_num [descTotal, min_def, max_def, SummaryRow.mk.injEq]

theorem claim_C1_witness :
    ([Row.mk 0 "A" 10, Row.mk 1 "A" 20, Row.mk 2 "B" 5] ≠ ([] : List Row))
    ∧ ((summaryStatistics [Row.mk 0 "A" 10, Row.mk 1 "A" 20, Row.mk 2 "B" 5]).Pairwise
        (fun a b => b.total_kWh ≤ a.total_kWh)
      ∧ summaryStatistics [Row.mk 0 "A" 10, Row.mk 1 "A" 20, Row.mk 2 "B" 5]
          = [SummaryRow.mk "A" 15 10 20 30, SummaryRow.mk "B" 5 5 5 5]) :=
  ⟨by decide,
    (claim_C1 [Row.mk 0 "A" 10, Row.mk 1 "A" 20, Row.mk 2 "B" 5] (by decide)).1,
    (claim_C1 [Row.mk 0 "A" 10, Row.mk 1 "A" 20, Row.mk 2 "B" 5] (by decide)).2.2.2.2⟩

end EnergyDashboard

namespace EnergyDashboard

/-- C5 (amended): for every non-empty combined table and every building
present, the row selected by `idxmax` is the first row in table order
attaining the building's maximum value (value ties broken by first
occurrence), and *provided that row's timestamp occurs exactly once among
the building's rows*, the peak-hour table gives for that building exactly
that row's hour-of-day and value.  (Without the uniqueness proviso,
`g.loc[ts]` returns every row sharing the timestamp — see the
counterexample.) -/
theorem claim_C5 (df : List Row) (b : String) (hdf : df ≠ [])
    (hb : ∃ r ∈ df, r.building = b) :
    ∃ r, idxmaxRow (groupOf df b) = some r
      ∧ (∀ s ∈ groupOf df b, s.kwh ≤ r.kwh)
      ∧ (∃ l₁ l₂, groupOf df b = l₁ ++ r :: l₂ ∧ ∀ s ∈ l₁, s.kwh < r.kwh)
      ∧ (((groupOf df b).countP fun s => s.ts == r.ts) = 1 →
          (b, [(r.ts % 24, r.kwh)]) ∈ peakHoursByBuilding df) := by
  have hg : groupOf df b ≠ [] := groupOf_ne_nil hb
  obtain ⟨r, hfind, hmax, l₁, l₂, hsplit, hstrict⟩ := idxmaxRow_spec (groupOf df b) hg
  refine ⟨r, hfind, hmax, ⟨l₁, l₂, hsplit, hstrict⟩, ?_⟩
  intro hcount
  have hbmem : b ∈ buildingsOf df := mem_buildingsOf.mpr hb
  have hrg : r ∈ groupOf df b :=
    hsplit ▸ List.mem_append_right l₁ (List.mem_cons_self r l₂)
  have hfilter : (groupOf df b).filter (fun s => s.ts == r.ts) = [r] :=
    filter_eq_single hcount hrg (by simp)
  unfold peakHoursByBuilding
  apply List.mem_map.mpr
  refine ⟨b, hbmem, ?_⟩
  simp only [hfind, hfilter, List.map_cons, List.map_nil]

/-- C5 counterexample: the claim promises the single maximum row per
building, but for a table whose building A has two rows at the same
timestamp (values 5 and 3), the peak table for A holds both rows — the
non-maximal row included — because `g.loc` selects by (duplicated)
timestamp index. -/
theorem claim_C5_counterexample :
    peakHoursByBuilding [Row.mk 0 "A" 5, Row.mk 0 "A" 3] ≠ [("A", [(0, 5)])] := by
  decide

theorem claim_C5_witness :
    (([Row.mk 25 "A" 3, Row.mk 2 "A" 7, Row.mk 3 "B" 1] : List Row) ≠ [])
    ∧ (∃ r ∈ ([Row.mk 25 "A" 3, Row.mk 2 "A" 7, Row.mk 3 "B" 1] : List Row),
        r.building = "A")
    ∧ (∃ r, idxmaxRow (groupOf [Row.mk 25 "A" 3, Row.mk 2 "A" 7, Row.mk 3 "B" 1] "A")
          = some r
        ∧ (∀ s ∈ groupOf [Row.mk 25 "A" 3, Row.mk 2 "A" 7, Row.mk 3 "B" 1] "A",
            s.kwh ≤ r.kwh)
        ∧ (∃ l₁ l₂, groupOf [Row.mk 25 "A" 3, Row.mk 2 "A" 7, Row.mk 3 "B" 1] "A"
              = l₁ ++ r :: l₂ ∧ ∀ s ∈ l₁, s.kwh < r.kwh)
        ∧ (((groupOf [Row.mk 25 "A" 3, Row.mk 2 "A" 7, Row.mk 3 "B" 1] "A").countP
              fun s => s.ts == r.ts) = 1 →
            (("A" : String), [(r.ts % 24, r.kwh)]) ∈
              peakHoursByBuilding [Row.mk 25 "A" 3, Row.mk 2 "A" 7, Row.mk 3 "B" 1])) :=
  ⟨by decide, by decide,
    claim_C5 [Row.mk 25 "A" 3, Row.mk 2 "A" 7, Row.mk 3 "B" 1] "A" (by decide) (by decide)⟩

end EnergyDashboard

namespace EnergyDashboard

/-- C6 (amended): when `calculate_time_trends` is called on an empty
combined table, it returns empty daily totals and empty weekly means and
stores empty results for those two (via the single early-return guard)
without raising, but the peak-hour computation is skipped entirely: the
stored peak-hour attribute is left unchanged — still `None` on a fresh
manager — rather than set to an empty result. -/
theorem claim_C6 (m : Manager) (h : m.df = []) :
    (calcTimeTrends m).1 = ([], [])
    ∧ (calcTimeTrends m).2.daily_totals = some []
    ∧ (calcTimeTrends m).2.weekly_avg_by_building = some []
    ∧ (calcTimeTrends m).2.peak_hours_by_building = m.peak_hours_by_building := by
  simp [calcTimeTrends, h]

/-- C6 counterexample: the claim says the peak-hour proxy also falls back
to an empty result on an empty table, but after `calculate_time_trends` on
a fresh manager over the empty table the stored peak-hour attribute is not
an empty table — it is still `None` (the computation never ran). -/
theorem claim_C6_counterexample :
    (calcTimeTrends (mkManager [])).2.peak_hours_by_building ≠ some [] := by
  decide

theorem claim_C6_witness :
    (mkManager []).df = []
    ∧ ((calcTimeTrends (mkManager [])).1 = ([], [])
      ∧ (calcTimeTrends (mkManager [])).2.daily_totals = some []
      ∧ (calcTimeTrends (mkManager [])).2.weekly_avg_by_building = some []
      ∧ (calcTimeTrends (mkManager [])).2.peak_hours_by_building
          = (mkManager []).peak_hours_by_building) :=
  ⟨rfl, claim_C6 (mkManager []) rfl⟩

/-- The returned pair of `calculate_time_trends` depends only on the
stored table, never on the cached attributes. -/
theorem calcTimeTrends_fst (m : Manager) :
    (calcTimeTrends m).1 =
      if m.df = [] then ([], []) else (dailyTotals m.df, weeklyAvgByBuilding m.df) := by
  unfold calcTimeTrends
  split
  · rfl
  · rfl

/-- C7: the pipeline is idempotent — the SummaryStats and TimeTrend values
depend only on the ingested table, so two runs over unchanged input files
produce identical results, even when the managers carry arbitrary (stale)
cached attributes from earlier computations: there is no hidden
incremental state. -/
theorem claim_C7 (d : Dir) (m₁ m₂ : Manager)
    (h₁ : m₁.df = ingest_data d) (h₂ : m₂.df = ingest_data d) :
    (calcSummaryStatistics m₁).1 = (calcSummaryStatistics m₂).1
    ∧ (calcTimeTrends m₁).1 = (calcTimeTrends m₂).1
    ∧ (runPipeline d).1.1 = (calcSummaryStatistics m₁).1
    ∧ (runPipeline d).1.2 = (calcTimeTrends m₁).1 := by
  refine ⟨?_, ?_, ?_, ?_⟩
  · show summaryStatistics m₁.df = summaryStatistics m₂.df
    rw [h₁, h₂]
  · rw [calcTimeTrends_fst, calcTimeTrends_fst, h₁, h₂]
  · show summaryStatistics (ingest_data d) = summaryStatistics m₁.df
    rw [h₁]
  · have hpipe : (runPipeline d).1.2 =
        (calcTimeTrends (Manager.mk (ingest_data d)
          (some (summaryStatistics (ingest_data d))) none none none)).1 := rfl
    rw [hpipe, calcTimeTrends_fst, calcTimeTrends_fst, h₁]

theorem claim_C7_witness :
    (Manager.mk [Row.mk 0 "C" 2] none none none none).df
        = ingest_data (Dir.mk true [CSVFile.mk true true true true
            [RawRow.mk (some 0) "C" (some 2)]])
    ∧ (Manager.mk [Row.mk 0 "C" 2] (some []) (some [(7, 99)]) (some []) (some [])).df
        = ingest_data (Dir.mk true [CSVFile.mk true true true true
            [RawRow.mk (some 0) "C" (some 2)]])
    ∧ ((calcSummaryStatistics (Manager.mk [Row.mk 0 "C" 2] none none none none)).1
        = (calcSummaryStatistics (Manager.mk [Row.mk 0 "C" 2]
            (some []) (some [(7, 99)]) (some []) (some []))).1
      ∧ (calcTimeTrends (Manager.mk [Row.mk 0 "C" 2] none none none none)).1
        = (calcTimeTrends (Manager.mk [Row.mk 0 "C" 2]
            (some []) (some [(7, 99)]) (some []) (some []))).1
      ∧ (runPipeline (Dir.mk true [CSVFile.mk true true true true
            [RawRow.mk (some 0) "C" (some 2)]])).1.1
        = (calcSummaryStatistics (Manager.mk [Row.mk 0 "C" 2] none none none none)).1
      ∧ (runPipeline (Dir.mk true [CSVFile.mk true true true true
            [RawRow.mk (some 0) "C" (some 2)]])).1.2
        = (calcTimeTrends (Manager.mk [Row.mk 0 "C" 2] none none none none)).1) :=
  ⟨by decide, by decide,
    claim_C7 (Dir.mk true [CSVFile.mk true true true true
        [RawRow.mk (some 0) "C" (some 2)]])
      (Manager.mk [Row.mk 0 "C" 2] none none none none)
      (Manager.mk [Row.mk 0 "C" 2] (some []) (some [(7, 99)]) (some []) (some []))
      (by decide) (by decide)⟩

/-- C8: aggregation never mutates the table it consumes: the manager
stores the ingested table unchanged, and neither
`calculate_summary_statistics` nor `calculate_time_trends` modifies the
stored table — `self.df` holds the same rows and values before and after
each call. -/
theorem claim_C8 (df : List Row) (m : Manager) :
    (mkManager df).df = df
    ∧ ((calcSummaryStatistics m).2).df = m.df
    ∧ ((calcTimeTrends m).2).df = m.df := by
  refine ⟨rfl, rfl, ?_⟩
  unfold calcTimeTrends
  split
  · rfl
  · rfl

end EnergyDashboard

/-- C9: the claim says the gradebook script, run with no arguments,
presents the interactive 1-4 menu and runs to completion.  The code does
not: line 246 reads `if _name_ == "_main_":`, and `_name_` is bound
nowhere in the module's globals nor by the interpreter, so evaluating the
guard raises `NameError` and the run terminates before any menu is
shown. -/
theorem claim_C9 :
    Gradebook.moduleRun = Gradebook.Outcome.nameError "_name_"
    ∧ Gradebook.nameDefined "_name_" = false
    ∧ Gradebook.moduleRun ≠ Gradebook.Outcome.menuSession := by
  refine ⟨by decide, by decide, by decide⟩

/-- C10: the calorie tracker computes the average as total divided by the
number of entered meals with no guard on the divisor: every run with at
least one meal reports average = total / count (and the limit check
against the total), while a run with zero meals fails with a
division-by-zero error (modelled as `none`) instead of completing. -/
theorem claim_C10 (limit : ℚ) (cals : List ℚ) (h : cals ≠ []) :
    (∃ rep, CalorieTracker.trackerRun limit cals = some rep
      ∧ rep.total = cals.sum
      ∧ rep.avg = cals.sum / (cals.length : ℚ)
      ∧ rep.exceeded = decide (cals.sum > limit))
    ∧ CalorieTracker.trackerRun limit [] = none := by
  constructor
  · have hlen : ¬ cals.length = 0 := by
      simpa [List.length_eq_zero] using h
    refine ⟨CalorieTracker.RunReport.mk cals.sum (cals.sum / (cals.length : ℚ))
      (decide (cals.sum > limit)), ?_, rfl, rfl, rfl⟩
    simp [CalorieTracker.trackerRun, hlen]
  · rfl

theorem claim_C10_witness :
    (([30, 50] : List ℚ) ≠ [])
    ∧ ((∃ rep, CalorieTracker.trackerRun 100 [30, 50] = some rep
        ∧ rep.total = ([30, 50] : List ℚ).sum
        ∧ rep.avg = ([30, 50] : List ℚ).sum / (([30, 50] : List ℚ).length : ℚ)
        ∧ rep.exceeded = decide (([30, 50] : List ℚ).sum > 100))
      ∧ CalorieTracker.trackerRun 100 [] = none) :=
  ⟨by decide, claim_C10 100 [30, 50] (by decide)⟩
